import Mathlib

/-!
Verification of the tic-tac-toe multiplayer backend (src/server.js).

The file shallowly embeds the server's core: the board engine
(`checkWinner`), the room code generator (`generateRoomCode`), the
in-memory room store (a JavaScript `Map` modelled as an ordered list of
rooms with unique codes), and the five socket event handlers
(`createRoom`, `joinRoom`, `makeMove`, `newGame`, `disconnect`).
Handlers return the new store together with the list of messages
emitted; a directed reply is `Emit.toSocket`, a room broadcast is
`Emit.toRoom`.  Where the JavaScript can raise an uncaught `TypeError`
(reading a field of a missing payload object), the embedded handler
returns `none`.
-/

/-- A player marker: `'X'` or `'O'` in the source.  The spec calls them
marker A and marker B: the creator is `'X'` (A), the joiner `'O'` (B). -/
inductive Mark
  | X
  | O
deriving DecidableEq, Repr

/-- The 9-cell board: `null` is `none`, a placed marker is `some`. -/
abbrev Board := List (Option Mark)

/-- The `WINNING_COMBINATIONS` list from the source: 3 rows, 3 columns, 2
diagonals, in this order. -/
def WINNING_COMBINATIONS : List (Nat × Nat × Nat) :=
  [(0, 1, 2), (3, 4, 5), (6, 7, 8),
   (0, 3, 6), (1, 4, 7), (2, 5, 8),
   (0, 4, 8), (2, 4, 6)]

/-- One iteration of the winner loop:
`board[a] && board[a] === board[b] && board[a] === board[c]`. -/
def comboWinner (board : Board) (combo : Nat × Nat × Nat) : Option Mark :=
  match board.getD combo.1 none with
  | none => none
  | some m =>
    if board.getD combo.2.1 none = some m ∧ board.getD combo.2.2 none = some m then
      some m
    else
      none

/-- Result of `checkWinner`: `'X'`/`'O'` is `win`, `'draw'` is `draw`,
`null` (game still running) is `inProgress`. -/
inductive Outcome
  | win (m : Mark)
  | draw
  | inProgress
deriving DecidableEq, Repr

/-- The `checkWinner` function from the source: first winning combination in scan
order, else draw when no cell is `null`, else in progress. -/
def checkWinner (board : Board) : Outcome :=
  match WINNING_COMBINATIONS.findSome? (comboWinner board) with
  | some m => .win m
  | none =>
    if board.all (fun cell => cell != none) then .draw else .inProgress

/-- Modelled from the spec: the three rows of the board. -/
def specRows : List (Nat × Nat × Nat) := [(0, 1, 2), (3, 4, 5), (6, 7, 8)]

/-- Modelled from the spec: the three columns of the board. -/
def specCols : List (Nat × Nat × Nat) := [(0, 3, 6), (1, 4, 7), (2, 5, 8)]

/-- Modelled from the spec: the two diagonals of the board. -/
def specDiags : List (Nat × Nat × Nat) := [(0, 4, 8), (2, 4, 6)]

/-- Modelled from the spec: the fixed deterministic scan order, rows,
then columns, then diagonals. -/
def specTriples : List (Nat × Nat × Nat) := specRows ++ specCols ++ specDiags

/-- Modelled from the spec: a triple wins if all three cells are
non-empty and identical; the winning marker is the triple's value. -/
def specTripleWin (board : Board) (t : Nat × Nat × Nat) : Option Mark :=
  match board.getD t.1 none, board.getD t.2.1 none, board.getD t.2.2 none with
  | some m1, some m2, some m3 => if m1 = m2 ∧ m1 = m3 then some m1 else none
  | _, _, _ => none

/-- Modelled from the spec: `evaluate(board)`; `Win(marker)` for the
first completed triple in scan order, else `Draw` when every cell is
occupied, else `InProgress`. -/
def evaluateSpec (board : Board) : Outcome :=
  match specTriples.findSome? (specTripleWin board) with
  | some m => .win m
  | none =>
    if board.all (fun cell => cell.isSome) then .draw else .inProgress

theorem specTriples_eq : specTriples = WINNING_COMBINATIONS := rfl

theorem specTripleWin_eq_comboWinner (board : Board) (t : Nat × Nat × Nat) :
    specTripleWin board t = comboWinner board t := by
  rcases t with ⟨a, b, c⟩
  simp only [specTripleWin, comboWinner]
  cases board.getD a none <;> cases board.getD b none <;> cases board.getD c none <;>
    first
      | rfl
      | (rename_i m1 m2 m3
         cases m1 <;> cases m2 <;> cases m3 <;> rfl)
      | simp

/-- C1: over all 3^9 configurations of a 9-cell board, `checkWinner` is
the spec's `evaluate`: `Win(marker)` for the first completed triple in
the fixed scan order rows, columns, diagonals; `Draw` when no triple is
completed and every cell is occupied; `InProgress` otherwise.  Both
sides are total computable functions, so evaluation is pure and
deterministic. -/
theorem checkWinner_eq_evaluateSpec (board : Board) (h : board.length = 9) :
    checkWinner board = evaluateSpec board := by
  have h1 : specTripleWin board = comboWinner board :=
    funext (specTripleWin_eq_comboWinner board)
  have h2 : (fun cell : Option Mark => cell.isSome) = (fun cell => cell != none) := by
    funext cell
    cases cell <;> rfl
  simp only [checkWinner, evaluateSpec, specTriples_eq, h1, h2]

theorem checkWinner_eq_evaluateSpec_witness :
    (List.replicate 9 (none : Option Mark)).length = 9 ∧
      checkWinner (List.replicate 9 none) = evaluateSpec (List.replicate 9 none) :=
  ⟨by decide, checkWinner_eq_evaluateSpec (List.replicate 9 none) (by decide)⟩

/-- A connection identifier (`socket.id`). -/
abbrev SocketId := String

/-- A room, as documented at the top of the source: unique 6-character
code, at most two players, 9-cell board, current player, activity flag,
and the `symbols` object mapping socket id to marker (modelled as an
insertion-ordered association list, like a JavaScript object with
string keys). -/
structure Room where
  code : String
  players : List SocketId
  board : Board
  currentPlayer : Mark
  gameActive : Bool
  symbols : List (SocketId × Mark)
deriving DecidableEq, Repr

/-- Reading `room.symbols[socketId]` (returns `undefined`, i.e. `none`, for an
absent key). -/
def lookupSym (syms : List (SocketId × Mark)) (sid : SocketId) : Option Mark :=
  (syms.find? (fun p => p.1 == sid)).map Prod.snd

/-- Assignment `room.symbols[socketId] = m`: overwrite an existing key in place,
otherwise append a new entry (JavaScript object assignment). -/
def setSym (syms : List (SocketId × Mark)) (sid : SocketId) (m : Mark) :
    List (SocketId × Mark) :=
  if syms.any (fun p => p.1 == sid) then
    syms.map (fun p => if p.1 == sid then (sid, m) else p)
  else
    syms ++ [(sid, m)]

/-- The statement `delete room.symbols[socketId]`. -/
def delSym (syms : List (SocketId × Mark)) (sid : SocketId) :
    List (SocketId × Mark) :=
  syms.filter (fun p => p.1 != sid)

/-- The global `rooms : Map` of the source, modelled as the
insertion-ordered list of its values (each `Room` carries its own key
in `code`). -/
abbrev Store := List Room

/-- JavaScript `toUpperCase()`: character-wise upper-casing of the string.  (The
core library's `String.toUpper` is not kernel-reducible, so the model
maps `Char.toUpper` over the character list directly.) -/
def jsToUpper (s : String) : String := String.mk (s.data.map Char.toUpper)

/-- The `getRoom` function from the source: `rooms.get(code.toUpperCase())`. -/
def getRoom (rooms : Store) (code : String) : Option Room :=
  rooms.find? (fun r => r.code == jsToUpper code)

/-- The `findPlayerRoom` function from the source: first room (in map iteration
order) whose `players` contains the socket id. -/
def findPlayerRoom (rooms : Store) (sid : SocketId) : Option Room :=
  rooms.find? (fun r => r.players.contains sid)

/-- The alphabet `'ABCDEFGHIJKLMNOPQRSTUVWXYZ0123456789'` used by
`generateRoomCode`. -/
def roomChars : List Char := "ABCDEFGHIJKLMNOPQRSTUVWXYZ0123456789".toList

/-- One candidate code: `chars.charAt(Math.floor(Math.random() * 36))`
six times; each call to `Math.random` is modelled as a draw in
`Fin 36`. -/
def codeOfDraws (ds : List (Fin 36)) : String :=
  String.mk (ds.map (fun d => roomChars.getD d.val 'A'))

/-- The test `rooms.has(code)` (the store is keyed by `code`). -/
def hasCode (rooms : Store) (code : String) : Bool :=
  rooms.any (fun r => r.code == code)

/-- The `generateRoomCode` function from the source: build 6-character candidates
from the stream of random draws until one is not a key of the store.
The source loops unboundedly; the model consumes the supplied finite
stream and answers `none` when it runs out (the JavaScript would keep
looping). -/
def generateRoomCode (rooms : Store) : List (Fin 36) → Option String
  | d1 :: d2 :: d3 :: d4 :: d5 :: d6 :: rest =>
    let code := codeOfDraws [d1, d2, d3, d4, d5, d6]
    if hasCode rooms code then generateRoomCode rooms rest else some code
  | _ => none

/-- The expression `Array(9).fill(null)`. -/
def freshBoard : Board := List.replicate 9 none

/-- The room built by `createRoom` once its code is generated: creator
is the sole player and is assigned `'X'`; `gameActive` starts false. -/
def createRoomWith (code : String) (sid : SocketId) : Room :=
  { code := code, players := [sid], board := freshBoard,
    currentPlayer := .X, gameActive := false, symbols := [(sid, .X)] }

/-- The exact error / status strings of the source. -/
def msgAlreadyInRoom : String := "Sei già in una stanza."

def msgInvalidCode : String := "Codice stanza non valido."

def msgRoomNotFound : String := "Stanza non trovata."

def msgRoomFull : String := "Stanza piena."

def msgGameStarted : String := "La partita è iniziata! X inizia."

def msgNotInRoom : String := "Non sei in una stanza."

def msgGameNotActive : String := "La partita non è attiva."

def msgNotYourTurn : String := "Non è il tuo turno."

def msgInvalidMove : String := "Mossa non valida."

def msgDrawEnd : String := "Pareggio!"

/-- Template-literal interpolation of a marker. -/
def markString : Mark → String
  | .X => "X"
  | .O => "O"

def msgWinEnd (m : Mark) : String := markString m ++ " ha vinto!"

def msgNeedTwoPlayers : String := "Servono 2 giocatori per iniziare."

def msgNewGame : String := "Nuova partita! X inizia."

def msgOpponentLeft : String := "L\x27avversario si è disconnesso."

/-- Outbound messages, one constructor per `emit` event of the source. -/
inductive ServerMsg
  | roomCreated (roomCode : String) (symbol : Mark)
  | joinedRoom (roomCode : String) (symbol : Mark)
  | gameStart (board : Board) (currentPlayer : Mark) (message : String)
  | moveMade (board : Board) (currentPlayer : Mark) (lastCellIndex : Int)
      (lastSymbol : Mark)
  | gameEnd (board : Board) (winner : Outcome) (message : String)
  | playerDisconnected (message : String)
  | errorMsg (message : String)
deriving DecidableEq, Repr

/-- An emission: `socket.emit` is a directed reply to one connection,
`io.to(room.code).emit` is a broadcast to a room. -/
inductive Emit
  | toSocket (sid : SocketId) (msg : ServerMsg)
  | toRoom (code : String) (msg : ServerMsg)
deriving DecidableEq, Repr

/-- Payload `data` of the `joinRoom` event; `roomCode` is `none` when the field
is absent or nullish. -/
structure JoinPayload where
  roomCode : Option String
deriving DecidableEq, Repr

/-- Payload `data` of the `makeMove` event; `cellIndex` is `none` when the
field is absent or nullish. -/
structure MovePayload where
  cellIndex : Option Int
deriving DecidableEq, Repr

/-- Replace the first room satisfying `p` by its image under `f`:
the in-place mutation of the room object that `find?` located. -/
def updateFirst (p : Room → Bool) (f : Room → Room) : Store → Store
  | [] => []
  | r :: rs => if p r then f r :: rs else r :: updateFirst p f rs

/-- The `createRoom` handler.  The result is `none` when the generator
exhausts the supplied draws (the JavaScript loops on); otherwise the
new store plus emissions.  Fresh keys are appended, as `Map.set` on a
new key appends in iteration order. -/
def handleCreateRoom (rooms : Store) (sid : SocketId) (draws : List (Fin 36)) :
    Option (Store × List Emit) :=
  if (findPlayerRoom rooms sid).isSome then
    some (rooms, [.toSocket sid (.errorMsg msgAlreadyInRoom)])
  else
    match generateRoomCode rooms draws with
    | none => none
    | some code =>
      some (rooms ++ [createRoomWith code sid],
        [.toSocket sid (.roomCreated code .X)])

/-- The mutation done by a successful join: push the joiner, assign it
`'O'` unconditionally, set the game active. -/
def joinUpd (sid : SocketId) (r : Room) : Room :=
  { r with players := r.players ++ [sid],
           symbols := setSym r.symbols sid .O,
           gameActive := true }

/-- The `joinRoom` handler.  `none` models the uncaught `TypeError`
raised by `data.roomCode` when the payload object is missing.  An
empty-string code fails the `length !== 6` test just as it fails the
source's `!code` test. -/
def handleJoinRoom (rooms : Store) (sid : SocketId) (payload : Option JoinPayload) :
    Option (Store × List Emit) :=
  match payload with
  | none => none
  | some p =>
    match p.roomCode.map jsToUpper with
    | none => some (rooms, [.toSocket sid (.errorMsg msgInvalidCode)])
    | some code =>
      if code.length != 6 then
        some (rooms, [.toSocket sid (.errorMsg msgInvalidCode)])
      else
        match getRoom rooms code with
        | none => some (rooms, [.toSocket sid (.errorMsg msgRoomNotFound)])
        | some room =>
          if room.players.length ≥ 2 then
            some (rooms, [.toSocket sid (.errorMsg msgRoomFull)])
          else if (findPlayerRoom rooms sid).isSome then
            some (rooms, [.toSocket sid (.errorMsg msgAlreadyInRoom)])
          else
            some (updateFirst (fun r => r.code == jsToUpper code) (joinUpd sid) rooms,
              [.toSocket sid (.joinedRoom room.code .O),
               .toRoom room.code
                 (.gameStart room.board room.currentPlayer msgGameStarted)])

/-- The flip `playerSymbol === 'X' ? 'O' : 'X'`. -/
def otherMark : Mark → Mark
  | .X => .O
  | .O => .X

/-- The test `room.board[cellIndex] !== null` for an index already known to be
in `[0, 8]`; an index beyond the array length reads `undefined`, which
also differs from `null`. -/
def cellTaken (board : Board) (i : Int) : Bool :=
  match board.get? i.toNat with
  | some cell => cell != none
  | none => true

/-- The mutation of an accepted move: write the mover's symbol, flip
the turn; `ended` is whether `checkWinner` reported a winner or a draw,
in which case `gameActive` is cleared. -/
def moveUpd (playerSymbol : Mark) (i : Int) (ended : Bool) (r : Room) : Room :=
  { r with board := r.board.set i.toNat (some playerSymbol),
           currentPlayer := otherMark playerSymbol,
           gameActive := if ended then false else r.gameActive }

/-- The `makeMove` handler.  `none` models the uncaught `TypeError` of
`data.cellIndex` on a missing payload — which the source only reaches
after the session and activity checks.  A missing `cellIndex` field
(`undefined`) fails the validity test, since `undefined < 0` and
`undefined > 8` are false and `board[undefined] !== null` is true. -/
def handleMakeMove (rooms : Store) (sid : SocketId) (payload : Option MovePayload) :
    Option (Store × List Emit) :=
  match findPlayerRoom rooms sid with
  | none => some (rooms, [.toSocket sid (.errorMsg msgNotInRoom)])
  | some room =>
    if room.gameActive = false then
      some (rooms, [.toSocket sid (.errorMsg msgGameNotActive)])
    else
      match payload with
      | none => none
      | some p =>
        match lookupSym room.symbols sid with
        | none => some (rooms, [.toSocket sid (.errorMsg msgNotYourTurn)])
        | some playerSymbol =>
          if playerSymbol != room.currentPlayer then
            some (rooms, [.toSocket sid (.errorMsg msgNotYourTurn)])
          else
            match p.cellIndex with
            | none => some (rooms, [.toSocket sid (.errorMsg msgInvalidMove)])
            | some i =>
              if i < 0 ∨ 8 < i ∨ cellTaken room.board i then
                some (rooms, [.toSocket sid (.errorMsg msgInvalidMove)])
              else
                match checkWinner (room.board.set i.toNat (some playerSymbol)) with
                | .inProgress =>
                  some (updateFirst (fun r => r.players.contains sid)
                      (moveUpd playerSymbol i false) rooms,
                    [.toRoom room.code
                      (.moveMade (room.board.set i.toNat (some playerSymbol))
                        (otherMark playerSymbol) i playerSymbol)])
                | .draw =>
                  some (updateFirst (fun r => r.players.contains sid)
                      (moveUpd playerSymbol i true) rooms,
                    [.toRoom room.code
                      (.gameEnd (room.board.set i.toNat (some playerSymbol))
                        .draw msgDrawEnd)])
                | .win m =>
                  some (updateFirst (fun r => r.players.contains sid)
                      (moveUpd playerSymbol i true) rooms,
                    [.toRoom room.code
                      (.gameEnd (room.board.set i.toNat (some playerSymbol))
                        (.win m) (msgWinEnd m))])

/-- The `resetGame` function from the source. -/
def resetUpd (r : Room) : Room :=
  { r with board := freshBoard, currentPlayer := .X, gameActive := true }

/-- The `newGame` handler. -/
def handleNewGame (rooms : Store) (sid : SocketId) : Store × List Emit :=
  match findPlayerRoom rooms sid with
  | none => (rooms, [.toSocket sid (.errorMsg msgNotInRoom)])
  | some room =>
    if room.players.length != 2 then
      (rooms, [.toSocket sid (.errorMsg msgNeedTwoPlayers)])
    else
      (updateFirst (fun r => r.players.contains sid) resetUpd rooms,
       [.toRoom room.code (.gameStart freshBoard .X msgNewGame)])

/-- The mutation done by a disconnect: drop the player, delete its
symbol entry, clear `gameActive`. -/
def dropUpd (sid : SocketId) (r : Room) : Room :=
  { r with players := r.players.filter (fun x => x != sid),
           symbols := delSym r.symbols sid,
           gameActive := false }

/-- The `disconnect` handler: a no-op when the socket is in no room;
otherwise mutate the room, broadcast the player-left notice, and delete
the room from the store when its player list became empty. -/
def handleDisconnect (rooms : Store) (sid : SocketId) : Store × List Emit :=
  match findPlayerRoom rooms sid with
  | none => (rooms, [])
  | some room =>
    if (dropUpd sid room).players.isEmpty then
      ((updateFirst (fun r => r.players.contains sid) (dropUpd sid) rooms).filter
          (fun r => r.code != room.code),
        [Emit.toRoom room.code (.playerDisconnected msgOpponentLeft)])
    else
      (updateFirst (fun r => r.players.contains sid) (dropUpd sid) rooms,
        [Emit.toRoom room.code (.playerDisconnected msgOpponentLeft)])

/-- Inbound events; `createRoom` carries the random draws its code
generation will consume. -/
inductive Event
  | createRoom (sid : SocketId) (draws : List (Fin 36))
  | joinRoom (sid : SocketId) (payload : Option JoinPayload)
  | makeMove (sid : SocketId) (payload : Option MovePayload)
  | newGame (sid : SocketId)
  | disconnect (sid : SocketId)

/-- One inbound event processed to completion. -/
def step (rooms : Store) : Event → Option (Store × List Emit)
  | .createRoom sid draws => handleCreateRoom rooms sid draws
  | .joinRoom sid payload => handleJoinRoom rooms sid payload
  | .makeMove sid payload => handleMakeMove rooms sid payload
  | .newGame sid => some (handleNewGame rooms sid)
  | .disconnect sid => some (handleDisconnect rooms sid)

/-- Run a sequence of events from a store, stopping at an abnormal
step. -/
def runEvents : List Event → Store → Option Store
  | [], rooms => some rooms
  | e :: es, rooms =>
    match step rooms e with
    | none => none
    | some (rooms', _) => runEvents es rooms'

/-- A store that some event sequence produces from the initial empty
store. -/
def Reachable (rooms : Store) : Prop :=
  ∃ es, runEvents es [] = some rooms

/-- The keys of the store. -/
def storeCodes (rooms : Store) : List String := rooms.map Room.code

/-- Every participant slot of every room, in store order. -/
def storePlayers (rooms : Store) : List SocketId := (rooms.map Room.players).flatten

theorem storePlayers_append (l1 l2 : Store) :
    storePlayers (l1 ++ l2) = storePlayers l1 ++ storePlayers l2 := by
  simp [storePlayers]

theorem mem_storePlayers {rooms : Store} {x : SocketId} :
    x ∈ storePlayers rooms ↔ ∃ r ∈ rooms, x ∈ r.players := by
  simp [storePlayers, List.mem_flatten]

theorem findPlayerRoom_eq_none {rooms : Store} {sid : SocketId} :
    findPlayerRoom rooms sid = none ↔ ∀ r ∈ rooms, sid ∉ r.players := by
  simp [findPlayerRoom, List.find?_eq_none, List.contains, List.elem_iff]

theorem roomChars_length : roomChars.length = 36 := by decide

theorem roomChars_getD_mem (d : Fin 36) : roomChars.getD d.val 'A' ∈ roomChars := by
  have hd : d.val < roomChars.length := by
    rw [roomChars_length]
    exact d.isLt
  rw [List.getD_eq_getElem _ _ hd]
  exact List.getElem_mem hd

theorem hasCode_eq_false {rooms : Store} {code : String}
    (h : hasCode rooms code = false) : code ∉ storeCodes rooms := by
  intro hmem
  rcases List.mem_map.1 hmem with ⟨r, hr, hcode⟩
  have : r.code == code := by simp [hcode]
  have : hasCode rooms code = true := List.any_eq_true.2 ⟨r, hr, this⟩
  simp [this] at h

theorem generateRoomCode_spec {rooms : Store} {code : String} :
    ∀ {draws : List (Fin 36)}, generateRoomCode rooms draws = some code →
      code.length = 6 ∧ (∀ c ∈ code.data, c ∈ roomChars) ∧
        hasCode rooms code = false := by
  intro draws
  induction draws using generateRoomCode.induct rooms with
  | case1 d1 d2 d3 d4 d5 d6 rest c hcoll ih =>
    intro h
    have hcoll' : hasCode rooms (codeOfDraws [d1, d2, d3, d4, d5, d6]) = true := hcoll
    simp only [generateRoomCode, hcoll', if_true] at h
    exact ih h
  | case2 d1 d2 d3 d4 d5 d6 rest c hcoll =>
    intro h
    have hcoll' : ¬ hasCode rooms (codeOfDraws [d1, d2, d3, d4, d5, d6]) = true := hcoll
    simp only [generateRoomCode, hcoll', Bool.false_eq_true, if_false,
      Option.some.injEq] at h
    subst h
    refine ⟨rfl, ?_, by simpa using hcoll'⟩
    intro ch hch
    have hdata : (codeOfDraws [d1, d2, d3, d4, d5, d6]).data =
        [d1, d2, d3, d4, d5, d6].map (fun d => roomChars.getD d.val 'A') := rfl
    rw [hdata] at hch
    simp only [List.map, List.mem_cons, List.not_mem_nil, or_false] at hch
    rcases hch with h | h | h | h | h | h <;> (subst h; exact roomChars_getD_mem _)
  | case3 t h1 =>
    intro h
    rcases t with _ | ⟨a1, t⟩
    · simp [generateRoomCode] at h
    rcases t with _ | ⟨a2, t⟩
    · simp [generateRoomCode] at h
    rcases t with _ | ⟨a3, t⟩
    · simp [generateRoomCode] at h
    rcases t with _ | ⟨a4, t⟩
    · simp [generateRoomCode] at h
    rcases t with _ | ⟨a5, t⟩
    · simp [generateRoomCode] at h
    rcases t with _ | ⟨a6, t⟩
    · simp [generateRoomCode] at h
    exact (h1 a1 a2 a3 a4 a5 a6 t rfl).elim

theorem storePlayers_cons (r : Room) (rs : Store) :
    storePlayers (r :: rs) = r.players ++ storePlayers rs := by
  simp [storePlayers]

theorem storeCodes_cons (r : Room) (rs : Store) :
    storeCodes (r :: rs) = r.code :: storeCodes rs := rfl

theorem updateFirst_cons (p : Room → Bool) (f : Room → Room) (r : Room) (rs : Store) :
    updateFirst p f (r :: rs) =
      if p r then f r :: rs else r :: updateFirst p f rs := rfl

theorem storeCodes_updateFirst (p : Room → Bool) (f : Room → Room)
    (hf : ∀ r, p r = true → (f r).code = r.code) :
    ∀ l : Store, storeCodes (updateFirst p f l) = storeCodes l := by
  intro l
  induction l with
  | nil => rfl
  | cons r rs ih =>
    rw [updateFirst_cons]
    by_cases hp : p r
    · rw [if_pos hp, storeCodes_cons, storeCodes_cons, hf r hp]
    · rw [if_neg hp, storeCodes_cons, storeCodes_cons, ih]

theorem storePlayers_updateFirst_keep (p : Room → Bool) (f : Room → Room)
    (hf : ∀ r, p r = true → (f r).players = r.players) :
    ∀ l : Store, storePlayers (updateFirst p f l) = storePlayers l := by
  intro l
  induction l with
  | nil => rfl
  | cons r rs ih =>
    rw [updateFirst_cons]
    by_cases hp : p r
    · rw [if_pos hp, storePlayers_cons, storePlayers_cons, hf r hp]
    · rw [if_neg hp, storePlayers_cons, storePlayers_cons, ih]

theorem mem_storePlayers_updateFirst_join {sid x : SocketId} {p : Room → Bool} :
    ∀ l : Store, x ∈ storePlayers (updateFirst p (joinUpd sid) l) →
      x ∈ storePlayers l ∨ x = sid := by
  intro l
  induction l with
  | nil => intro hx; exact Or.inl hx
  | cons r rs ih =>
    intro hx
    rw [updateFirst_cons] at hx
    by_cases hp : p r
    · rw [if_pos hp, storePlayers_cons] at hx
      rcases List.mem_append.1 hx with h | h
      · have hh : x ∈ r.players ++ [sid] := h
        rcases List.mem_append.1 hh with h' | h'
        · exact Or.inl (by rw [storePlayers_cons]; exact List.mem_append.2 (Or.inl h'))
        · exact Or.inr (List.mem_singleton.1 h')
      · exact Or.inl (by rw [storePlayers_cons]; exact List.mem_append.2 (Or.inr h))
    · rw [if_neg hp, storePlayers_cons] at hx
      rcases List.mem_append.1 hx with h | h
      · exact Or.inl (by rw [storePlayers_cons]; exact List.mem_append.2 (Or.inl h))
      · rcases ih h with h' | h'
        · exact Or.inl (by rw [storePlayers_cons]; exact List.mem_append.2 (Or.inr h'))
        · exact Or.inr h'

theorem nodup_storePlayers_updateFirst_join {sid : SocketId} {p : Room → Bool} :
    ∀ l : Store, (storePlayers l).Nodup → (∀ r ∈ l, sid ∉ r.players) →
      (storePlayers (updateFirst p (joinUpd sid) l)).Nodup := by
  intro l
  induction l with
  | nil => intro h _; simpa using h
  | cons r rs ih =>
    intro hnd hfresh
    rw [storePlayers_cons, List.nodup_append] at hnd
    obtain ⟨hnp, hns, hdisj⟩ := hnd
    have h1 : sid ∉ r.players := hfresh r (List.mem_cons_self r rs)
    have h2 : ∀ r' ∈ rs, sid ∉ r'.players :=
      fun r' hr' => hfresh r' (List.mem_cons_of_mem _ hr')
    have h3 : sid ∉ storePlayers rs := by
      rw [mem_storePlayers]
      rintro ⟨r', hr', hmem⟩
      exact h2 r' hr' hmem
    rw [updateFirst_cons]
    by_cases hp : p r
    · rw [if_pos hp, storePlayers_cons]
      have hply : (joinUpd sid r).players = r.players ++ [sid] := rfl
      rw [hply, List.nodup_append, List.nodup_append]
      refine ⟨⟨hnp, List.nodup_singleton _, ?_⟩, hns, ?_⟩
      · intro a ha hb
        rw [List.mem_singleton] at hb
        subst hb
        exact h1 ha
      · intro a ha hb
        rcases List.mem_append.1 ha with h | h
        · exact hdisj h hb
        · rw [List.mem_singleton] at h
          subst h
          exact h3 hb
    · rw [if_neg hp, storePlayers_cons, List.nodup_append]
      refine ⟨hnp, ih hns h2, ?_⟩
      intro a ha hb
      rcases mem_storePlayers_updateFirst_join rs hb with h | h
      · exact hdisj ha h
      · subst h
        exact h1 ha

theorem storePlayers_updateFirst_sublist (p : Room → Bool) (f : Room → Room)
    (hf : ∀ r, p r = true → ((f r).players).Sublist r.players) :
    ∀ l : Store, (storePlayers (updateFirst p f l)).Sublist (storePlayers l) := by
  intro l
  induction l with
  | nil => exact List.Sublist.refl _
  | cons r rs ih =>
    rw [updateFirst_cons]
    by_cases hp : p r
    · rw [if_pos hp, storePlayers_cons, storePlayers_cons]
      exact List.Sublist.append (hf r hp) (List.Sublist.refl _)
    · rw [if_neg hp, storePlayers_cons, storePlayers_cons]
      exact List.Sublist.append (List.Sublist.refl _) ih

theorem storePlayers_filter_sublist (q : Room → Bool) :
    ∀ l : Store, (storePlayers (l.filter q)).Sublist (storePlayers l) := by
  intro l
  induction l with
  | nil => exact List.Sublist.refl _
  | cons r rs ih =>
    rw [List.filter_cons]
    by_cases hq : q r
    · rw [if_pos hq, storePlayers_cons, storePlayers_cons]
      exact List.Sublist.append (List.Sublist.refl _) ih
    · rw [if_neg hq, storePlayers_cons]
      exact ih.trans (List.sublist_append_right _ _)

theorem storeCodes_filter_sublist (q : Room → Bool) (l : Store) :
    (storeCodes (l.filter q)).Sublist (storeCodes l) := by
  simpa [storeCodes] using (List.filter_sublist l : (l.filter q).Sublist l).map Room.code

/-- The store invariants: codes are pairwise distinct (they are the map
keys) and no socket id occupies two player slots anywhere in the
store. -/
def StoreInv (rooms : Store) : Prop :=
  (storeCodes rooms).Nodup ∧ (storePlayers rooms).Nodup

theorem isSome_eq_false_iff {α : Type} {o : Option α} :
    o.isSome = false ↔ o = none := by
  cases o <;> simp


theorem handleCreateRoom_inv {rooms rooms' : Store} {sid : SocketId}
    {draws : List (Fin 36)} {emits : List Emit} (hinv : StoreInv rooms)
    (h : handleCreateRoom rooms sid draws = some (rooms', emits)) :
    StoreInv rooms' := by
  unfold handleCreateRoom at h
  repeat' split at h
  all_goals cases h
  all_goals try exact hinv
  rename_i hin x code hgen
  obtain ⟨hc, hp⟩ := hinv
  have hnone : findPlayerRoom rooms sid = none := Option.not_isSome_iff_eq_none.1 hin
  have hsid : ∀ r ∈ rooms, sid ∉ r.players := findPlayerRoom_eq_none.1 hnone
  have hfresh := (generateRoomCode_spec hgen).2.2
  constructor
  · have hsc : storeCodes (rooms ++ [createRoomWith code sid]) =
        storeCodes rooms ++ [code] := by
      simp [storeCodes, createRoomWith]
    rw [hsc, List.nodup_append]
    refine ⟨hc, List.nodup_singleton _, ?_⟩
    intro a ha hb
    rw [List.mem_singleton] at hb
    subst hb
    exact hasCode_eq_false hfresh ha
  · rw [storePlayers_append]
    have hsp : storePlayers [createRoomWith code sid] = [sid] := rfl
    rw [hsp, List.nodup_append]
    refine ⟨hp, List.nodup_singleton _, ?_⟩
    intro a ha hb
    rw [List.mem_singleton] at hb
    subst hb
    rcases mem_storePlayers.1 ha with ⟨r, hr, hmem⟩
    exact hsid r hr hmem

theorem handleJoinRoom_inv {rooms rooms' : Store} {sid : SocketId}
    {payload : Option JoinPayload} {emits : List Emit} (hinv : StoreInv rooms)
    (h : handleJoinRoom rooms sid payload = some (rooms', emits)) :
    StoreInv rooms' := by
  unfold handleJoinRoom at h
  repeat' split at h
  all_goals cases h
  all_goals try exact hinv
  rename_i hin
  obtain ⟨hc, hp⟩ := hinv
  have hnone : findPlayerRoom rooms sid = none := Option.not_isSome_iff_eq_none.1 hin
  refine ⟨?_, nodup_storePlayers_updateFirst_join rooms hp (findPlayerRoom_eq_none.1 hnone)⟩
  have hgen : ∀ q : Room → Bool,
      (storeCodes (updateFirst q (joinUpd sid) rooms)).Nodup := by
    intro q
    rw [storeCodes_updateFirst q (joinUpd sid) (fun r _ => rfl)]
    exact hc
  exact hgen _

theorem handleMakeMove_inv {rooms rooms' : Store} {sid : SocketId}
    {payload : Option MovePayload} {emits : List Emit} (hinv : StoreInv rooms)
    (h : handleMakeMove rooms sid payload = some (rooms', emits)) :
    StoreInv rooms' := by
  have hupd : ∀ (q : Room → Bool) (ps : Mark) (i : Int) (b : Bool),
      StoreInv (updateFirst q (moveUpd ps i b) rooms) := by
    intro q ps i b
    obtain ⟨hc, hp⟩ := hinv
    constructor
    · rw [storeCodes_updateFirst q (moveUpd ps i b) (fun r _ => rfl)]
      exact hc
    · rw [storePlayers_updateFirst_keep q (moveUpd ps i b) (fun r _ => rfl)]
      exact hp
  unfold handleMakeMove at h
  repeat' split at h
  all_goals cases h
  all_goals first
    | exact hinv
    | exact hupd _ _ _ _

theorem handleNewGame_inv {rooms : Store} {sid : SocketId} (hinv : StoreInv rooms) :
    StoreInv (handleNewGame rooms sid).1 := by
  obtain ⟨hc, hp⟩ := hinv
  unfold handleNewGame
  split
  · exact ⟨hc, hp⟩
  · split
    · exact ⟨hc, hp⟩
    · constructor
      · rw [storeCodes_updateFirst (fun r => r.players.contains sid) resetUpd
          (fun r _ => rfl)]
        exact hc
      · rw [storePlayers_updateFirst_keep (fun r => r.players.contains sid) resetUpd
          (fun r _ => rfl)]
        exact hp

theorem handleDisconnect_inv {rooms : Store} {sid : SocketId} (hinv : StoreInv rooms) :
    StoreInv (handleDisconnect rooms sid).1 := by
  obtain ⟨hc, hp⟩ := hinv
  have hcodes : (storeCodes (updateFirst (fun r => r.players.contains sid)
      (dropUpd sid) rooms)).Nodup := by
    rw [storeCodes_updateFirst (fun r => r.players.contains sid) (dropUpd sid)
      (fun r _ => rfl)]
    exact hc
  have hplayers : (storePlayers (updateFirst (fun r => r.players.contains sid)
      (dropUpd sid) rooms)).Nodup :=
    (storePlayers_updateFirst_sublist (fun r => r.players.contains sid) (dropUpd sid)
      (fun r _ => List.filter_sublist _) rooms).nodup hp
  unfold handleDisconnect
  split
  · exact ⟨hc, hp⟩
  · split
    · exact ⟨(storeCodes_filter_sublist _ _).nodup hcodes,
        (storePlayers_filter_sublist _ _).nodup hplayers⟩
    · exact ⟨hcodes, hplayers⟩

theorem step_inv {rooms rooms' : Store} {e : Event} {emits : List Emit}
    (hinv : StoreInv rooms) (h : step rooms e = some (rooms', emits)) :
    StoreInv rooms' := by
  cases e with
  | createRoom sid draws => exact handleCreateRoom_inv hinv h
  | joinRoom sid payload => exact handleJoinRoom_inv hinv h
  | makeMove sid payload => exact handleMakeMove_inv hinv h
  | newGame sid =>
    simp only [step] at h
    injection h with h'
    have h1 : (handleNewGame rooms sid).1 = rooms' := by rw [h']
    rw [← h1]
    exact handleNewGame_inv hinv
  | disconnect sid =>
    simp only [step] at h
    injection h with h'
    have h1 : (handleDisconnect rooms sid).1 = rooms' := by rw [h']
    rw [← h1]
    exact handleDisconnect_inv hinv

theorem runEvents_inv :
    ∀ (es : List Event) (rooms rooms' : Store), StoreInv rooms →
      runEvents es rooms = some rooms' → StoreInv rooms' := by
  intro es
  induction es with
  | nil =>
    intro rooms rooms' h hr
    cases hr
    exact h
  | cons e es ih =>
    intro rooms rooms' h hr
    simp only [runEvents] at hr
    cases hstep : step rooms e with
    | none => rw [hstep] at hr; cases hr
    | some pr =>
      rw [hstep] at hr
      exact ih pr.1 rooms' (step_inv h hstep) hr

theorem reachable_inv {rooms : Store} (h : Reachable rooms) : StoreInv rooms := by
  rcases h with ⟨es, hrun⟩
  exact runEvents_inv es [] rooms ⟨List.nodup_nil, List.nodup_nil⟩ hrun

theorem find?_map_set_self {sid : SocketId} {m : Mark} :
    ∀ syms : List (SocketId × Mark), syms.any (fun p => p.1 == sid) = true →
      (syms.map (fun p => if p.1 == sid then (sid, m) else p)).find?
        (fun p => p.1 == sid) = some (sid, m) := by
  intro syms
  induction syms with
  | nil => intro h; simp at h
  | cons q qs ih =>
    intro h
    by_cases hq : (q.1 == sid) = true
    · simp only [List.map_cons, if_pos hq]
      exact List.find?_cons_of_pos _ (by simp)
    · simp only [List.map_cons, if_neg hq]
      rw [List.find?_cons_of_neg _ (by simpa using hq)]
      apply ih
      simpa [List.any_cons, hq] using h

theorem find?_append_self {sid : SocketId} {m : Mark} :
    ∀ syms : List (SocketId × Mark), syms.any (fun p => p.1 == sid) = false →
      (syms ++ [(sid, m)]).find? (fun p => p.1 == sid) = some (sid, m) := by
  intro syms
  induction syms with
  | nil => intro _; simp [List.find?]
  | cons q qs ih =>
    intro h
    simp only [List.any_cons, Bool.or_eq_false_iff] at h
    rw [List.cons_append, List.find?_cons_of_neg _ (by simp [h.1])]
    exact ih h.2

theorem lookupSym_setSym_self (syms : List (SocketId × Mark)) (sid : SocketId)
    (m : Mark) : lookupSym (setSym syms sid m) sid = some m := by
  unfold lookupSym setSym
  by_cases hany : syms.any (fun p => p.1 == sid) = true
  · rw [if_pos hany, find?_map_set_self syms hany]
    rfl
  · rw [if_neg hany, find?_append_self syms (Bool.eq_false_iff.2 hany)]
    rfl

theorem find?_map_set_other {x sid : SocketId} (hx : x ≠ sid) (m : Mark) :
    ∀ syms : List (SocketId × Mark),
      (syms.map (fun p => if p.1 == sid then (sid, m) else p)).find?
          (fun p => p.1 == x) =
        syms.find? (fun p => p.1 == x) := by
  intro syms
  induction syms with
  | nil => rfl
  | cons q qs ih =>
    by_cases hq : (q.1 == sid) = true
    · have hq1 : q.1 = sid := by simpa using hq
      simp only [List.map_cons, if_pos hq]
      rw [List.find?_cons_of_neg _ (by simp; exact Ne.symm hx),
        List.find?_cons_of_neg _ (by simp [hq1]; exact Ne.symm hx)]
      exact ih
    · simp only [List.map_cons, if_neg hq]
      by_cases hqx : (q.1 == x) = true
      · rw [@List.find?_cons_of_pos _ (fun p => p.1 == x) q
            (qs.map (fun p => if p.1 == sid then (sid, m) else p)) hqx,
          @List.find?_cons_of_pos _ (fun p => p.1 == x) q qs hqx]
      · rw [@List.find?_cons_of_neg _ (fun p => p.1 == x) q
            (qs.map (fun p => if p.1 == sid then (sid, m) else p)) hqx,
          @List.find?_cons_of_neg _ (fun p => p.1 == x) q qs hqx]
        exact ih

theorem lookupSym_setSym_other {x sid : SocketId} (hx : x ≠ sid)
    (syms : List (SocketId × Mark)) (m : Mark) :
    lookupSym (setSym syms sid m) x = lookupSym syms x := by
  unfold lookupSym setSym
  by_cases hany : syms.any (fun p => p.1 == sid) = true
  · rw [if_pos hany, find?_map_set_other hx m syms]
  · rw [if_neg hany, List.find?_append]
    have hone : List.find? (fun p => p.1 == x) [(sid, m)] = none := by
      apply List.find?_eq_none.2
      intro q hq
      rw [List.mem_singleton] at hq
      subst hq
      simp
      exact Ne.symm hx
    rw [hone, Option.or_none]

theorem lookupSym_delSym_self (syms : List (SocketId × Mark)) (sid : SocketId) :
    lookupSym (delSym syms sid) sid = none := by
  unfold lookupSym delSym
  have hnone : List.find? (fun p => p.1 == sid)
      (syms.filter (fun p => p.1 != sid)) = none := by
    apply List.find?_eq_none.2
    intro q hq
    rcases List.mem_filter.1 hq with ⟨_, hne⟩
    simpa using hne
  rw [hnone]
  rfl

theorem find?_code_updateFirst {p : Room → Bool} {f : Room → Room} {room : Room}
    (hcode : (f room).code = room.code) :
    ∀ l : Store, (storeCodes l).Nodup → l.find? p = some room →
      (updateFirst p f l).find? (fun r => r.code == room.code) = some (f room) := by
  intro l
  induction l with
  | nil => intro _ hf; cases hf
  | cons r rs ih =>
    intro hnd hf
    rw [storeCodes_cons, List.nodup_cons] at hnd
    obtain ⟨hnotin, hnd⟩ := hnd
    by_cases hp : p r
    · rw [List.find?_cons_of_pos _ hp] at hf
      injection hf with hf
      subst hf
      rw [updateFirst_cons, if_pos hp]
      exact List.find?_cons_of_pos _ (by simp [hcode])
    · rw [List.find?_cons_of_neg _ hp] at hf
      rw [updateFirst_cons, if_neg hp]
      have hmem : room ∈ rs := List.mem_of_find?_eq_some hf
      have hne : r.code ≠ room.code := by
        intro he
        exact hnotin (he ▸ List.mem_map.2 ⟨room, hmem, rfl⟩)
      rw [List.find?_cons_of_neg _ (by simp [hne])]
      exact ih hnd hf

/-- C8: every identifier the code generator returns is a 6-character
string over the alphabet `[A-Z0-9]` that is not a current key of the
store, and consequently the codes of every reachable store are pairwise
distinct, so an allocated identifier is never reused while its session
(or any other session) exists. -/
theorem generateRoomCode_fresh_and_unique :
    (∀ (rooms : Store) (draws : List (Fin 36)) (code : String),
      generateRoomCode rooms draws = some code →
        code.length = 6 ∧ (∀ c ∈ code.data, c ∈ roomChars) ∧
          code ∉ storeCodes rooms) ∧
    (∀ rooms : Store, Reachable rooms → (storeCodes rooms).Nodup) := by
  constructor
  · intro rooms draws code h
    obtain ⟨h1, h2, h3⟩ := generateRoomCode_spec h
    exact ⟨h1, h2, hasCode_eq_false h3⟩
  · intro rooms h
    exact (reachable_inv h).1

theorem generateRoomCode_fresh_and_unique_witness :
    ("AAAAAA".length = 6 ∧ (∀ c ∈ "AAAAAA".data, c ∈ roomChars) ∧
      "AAAAAA" ∉ storeCodes []) ∧
    (storeCodes []).Nodup :=
  ⟨generateRoomCode_fresh_and_unique.1 [] [0, 0, 0, 0, 0, 0] "AAAAAA" (by decide),
   generateRoomCode_fresh_and_unique.2 [] ⟨[], rfl⟩⟩

/-- Random draws producing the code `AAAAAA` / `BBBBBB`. -/
def ceDrawsA : List (Fin 36) := [0, 0, 0, 0, 0, 0]

def ceDrawsB : List (Fin 36) := [1, 1, 1, 1, 1, 1]

/-- Trace: `p1` creates room `AAAAAA`, `p2` joins it (room now full), `p3`
creates room `BBBBBB`. -/
def c5Trace : List Event :=
  [.createRoom "p1" ceDrawsA,
   .joinRoom "p2" (some ⟨some "AAAAAA"⟩),
   .createRoom "p3" ceDrawsB]

/-- The store after `c5Trace`. -/
def c5State : Store :=
  [{ code := "AAAAAA", players := ["p1", "p2"],
     board := List.replicate 9 none, currentPlayer := .X, gameActive := true,
     symbols := [("p1", .X), ("p2", .O)] },
   { code := "BBBBBB", players := ["p3"],
     board := List.replicate 9 none, currentPlayer := .X, gameActive := false,
     symbols := [("p3", .X)] }]

/-- C5 counterexample: `p3` is already a participant of room `BBBBBB`,
yet its join of the full room `AAAAAA` fails with the SessionFull error
(`Stanza piena.`), not AlreadyInSession (`Sei già in una stanza.`): the
full-room check precedes the already-in-session check. -/
theorem join_full_room_not_alreadyInSession :
    runEvents c5Trace [] = some c5State ∧
    (findPlayerRoom c5State "p3").isSome = true ∧
    handleJoinRoom c5State "p3" (some ⟨some "AAAAAA"⟩) =
      some (c5State, [.toSocket "p3" (.errorMsg msgRoomFull)]) ∧
    msgRoomFull ≠ msgAlreadyInRoom := by
  refine ⟨by decide, by decide, by decide, by decide⟩

/-- C5 (amended): a socket id is never a participant of two sessions at
once, nor twice in one session, in any reachable store.  CreateSession
always fails with AlreadyInSession when the requester is already a
participant; JoinSession fails with AlreadyInSession when the requester
is already a participant and the earlier validations pass (code of
length 6, room found, room not full) — when the target room is full or
missing, the earlier error (SessionFull, NotFound, InvalidCode) is
reported instead, and in every case the requester is not added and the
store is unchanged. -/
theorem alreadyInSession_policy :
    (∀ rooms : Store, Reachable rooms → (storePlayers rooms).Nodup) ∧
    (∀ (rooms : Store) (sid : SocketId) (draws : List (Fin 36)),
      (findPlayerRoom rooms sid).isSome = true →
        handleCreateRoom rooms sid draws =
          some (rooms, [.toSocket sid (.errorMsg msgAlreadyInRoom)])) ∧
    (∀ (rooms : Store) (sid : SocketId) (rc : String) (room : Room),
      (jsToUpper rc).length = 6 →
      getRoom rooms (jsToUpper rc) = some room →
      room.players.length < 2 →
      (findPlayerRoom rooms sid).isSome = true →
        handleJoinRoom rooms sid (some ⟨some rc⟩) =
          some (rooms, [.toSocket sid (.errorMsg msgAlreadyInRoom)])) := by
  refine ⟨?_, ?_, ?_⟩
  · intro rooms h
    exact (reachable_inv h).2
  · intro rooms sid draws hin
    unfold handleCreateRoom
    rw [if_pos hin]
  · intro rooms sid rc room hlen hget hlt hin
    have h2 : ¬ room.players.length ≥ 2 := by omega
    simp [handleJoinRoom, hlen, hget, h2, hin]

/-- Store with `p1` alone in `AAAAAA` and `p3` alone in `BBBBBB`. -/
def c5wStore : Store :=
  [createRoomWith "AAAAAA" "p1", createRoomWith "BBBBBB" "p3"]

theorem alreadyInSession_policy_witness :
    (storePlayers []).Nodup ∧
    handleCreateRoom [createRoomWith "AAAAAA" "p1"] "p1" ceDrawsA =
      some ([createRoomWith "AAAAAA" "p1"],
        [.toSocket "p1" (.errorMsg msgAlreadyInRoom)]) ∧
    handleJoinRoom c5wStore "p3" (some ⟨some "AAAAAA"⟩) =
      some (c5wStore, [.toSocket "p3" (.errorMsg msgAlreadyInRoom)]) :=
  ⟨alreadyInSession_policy.1 [] ⟨[], rfl⟩,
   alreadyInSession_policy.2.1 _ "p1" ceDrawsA (by decide),
   alreadyInSession_policy.2.2 c5wStore "p3" "AAAAAA" (createRoomWith "AAAAAA" "p1")
     (by decide) (by decide) (by decide) (by decide)⟩

/-- C2: the four failure modes of `makeMove`, in the code's check
order: NotInSession when the requester has no room, GameNotActive when
the room is not active, NotYourTurn when the requester's symbol is not
the current player (including an absent symbol entry), InvalidMove when
the cell index is outside `[0, 8]` or the target cell is occupied.  In
every case the store is returned unchanged and the only emission is one
directed error reply. -/
theorem makeMove_error_policy :
    ∀ (rooms : Store) (sid : SocketId) (i : Int),
      (findPlayerRoom rooms sid = none →
        handleMakeMove rooms sid (some ⟨some i⟩) =
          some (rooms, [.toSocket sid (.errorMsg msgNotInRoom)])) ∧
      (∀ room : Room, findPlayerRoom rooms sid = some room →
        room.gameActive = false →
        handleMakeMove rooms sid (some ⟨some i⟩) =
          some (rooms, [.toSocket sid (.errorMsg msgGameNotActive)])) ∧
      (∀ room : Room, findPlayerRoom rooms sid = some room →
        room.gameActive = true →
        lookupSym room.symbols sid ≠ some room.currentPlayer →
        handleMakeMove rooms sid (some ⟨some i⟩) =
          some (rooms, [.toSocket sid (.errorMsg msgNotYourTurn)])) ∧
      (∀ room : Room, findPlayerRoom rooms sid = some room →
        room.gameActive = true →
        lookupSym room.symbols sid = some room.currentPlayer →
        (i < 0 ∨ 8 < i ∨ cellTaken room.board i = true) →
        handleMakeMove rooms sid (some ⟨some i⟩) =
          some (rooms, [.toSocket sid (.errorMsg msgInvalidMove)])) := by
  intro rooms sid i
  refine ⟨?_, ?_, ?_, ?_⟩
  · intro h
    simp [handleMakeMove, h]
  · intro room hfp hact
    simp [handleMakeMove, hfp, hact]
  · intro room hfp hact hsym
    cases hl : lookupSym room.symbols sid with
    | none => simp [handleMakeMove, hfp, hact, hl]
    | some ps =>
      have hne : ps ≠ room.currentPlayer := by
        rintro rfl
        exact hsym hl
      simp [handleMakeMove, hfp, hact, hl, hne]
  · intro room hfp hact hsym hval
    simp [handleMakeMove, hfp, hact, hsym, hval]

theorem makeMove_error_policy_witness :
    handleMakeMove [] "p1" (some ⟨some 0⟩) =
      some ([], [.toSocket "p1" (.errorMsg msgNotInRoom)]) :=
  (makeMove_error_policy [] "p1" 0).1 (by decide)

/-- The board stored under a given key (first match, as `Map.get`). -/
def boardAt (rooms : Store) (code : String) : Option Board :=
  (rooms.find? (fun r => r.code == code)).map Room.board

theorem boardAt_same {rooms : Store} {code : String} {b b' : Board}
    (hb : boardAt rooms code = some b) (hb' : boardAt rooms code = some b') :
    b' = b := by
  rw [hb] at hb'
  exact (Option.some.inj hb').symm

theorem boardAt_append {l : Store} {x : Room} {code : String} {b : Board}
    (h : boardAt l code = some b) : boardAt (l ++ [x]) code = some b := by
  unfold boardAt at h ⊢
  cases hf : l.find? (fun r => r.code == code) with
  | none => rw [hf] at h; cases h
  | some r =>
    rw [hf] at h
    rw [List.find?_append, hf]
    simpa using h

theorem set_preserves_occupied {board : Board} {i : Int}
    (hfree : cellTaken board i = false) :
    ∀ (ps : Mark) (j : Nat) (m : Mark), board.get? j = some (some m) →
      (board.set i.toNat (some ps)).get? j = some (some m) := by
  intro ps j m hj
  have hfree' : board.get? i.toNat = some none := by
    unfold cellTaken at hfree
    cases hg : board.get? i.toNat with
    | none => rw [hg] at hfree; cases hfree
    | some cell =>
      rw [hg] at hfree
      cases cell with
      | none => rfl
      | some mm => simp at hfree
  by_cases hij : i.toNat = j
  · rw [hij] at hfree'
    rw [hfree'] at hj
    simp at hj
  · rw [List.get?_set_ne _ _ hij]
    exact hj

theorem boardAt_updateFirst_mono {p : Room → Bool} {f : Room → Room} {room : Room}
    (hcode : (f room).code = room.code)
    (hf : ∀ (j : Nat) (m : Mark), room.board.get? j = some (some m) →
      ((f room).board).get? j = some (some m)) :
    ∀ l : Store, l.find? p = some room →
      ∀ (code : String) (b b' : Board) (j : Nat) (m : Mark),
        boardAt l code = some b → boardAt (updateFirst p f l) code = some b' →
        b.get? j = some (some m) → b'.get? j = some (some m) := by
  intro l
  induction l with
  | nil => intro hfind; cases hfind
  | cons r rs ih =>
    intro hfind code b b' j m hb hb' hcell
    unfold boardAt at hb hb'
    by_cases hp : p r = true
    · rw [List.find?_cons_of_pos _ hp] at hfind
      injection hfind with hfind
      subst hfind
      rw [updateFirst_cons, if_pos hp] at hb'
      by_cases hrc : (r.code == code) = true
      · rw [@List.find?_cons_of_pos _ (fun r => r.code == code) r rs hrc] at hb
        have hrc' : ((f r).code == code) = true := by
          rw [show (f r).code = r.code from hcode]
          exact hrc
        rw [@List.find?_cons_of_pos _ (fun r => r.code == code) (f r) rs hrc'] at hb'
        simp at hb hb'
        subst hb
        subst hb'
        exact hf j m hcell
      · rw [@List.find?_cons_of_neg _ (fun r => r.code == code) r rs hrc] at hb
        have hrc' : ¬ ((f r).code == code) = true := by
          rw [show (f r).code = r.code from hcode]
          exact hrc
        rw [@List.find?_cons_of_neg _ (fun r => r.code == code) (f r) rs hrc'] at hb'
        rw [hb] at hb'
        injection hb' with hbb
        subst hbb
        exact hcell
    · rw [List.find?_cons_of_neg _ hp] at hfind
      rw [updateFirst_cons, if_neg hp] at hb'
      by_cases hrc : (r.code == code) = true
      · rw [@List.find?_cons_of_pos _ (fun r => r.code == code) r rs hrc] at hb
        rw [@List.find?_cons_of_pos _ (fun r => r.code == code) r
          (updateFirst p f rs) hrc] at hb'
        simp at hb hb'
        subst hb
        subst hb'
        exact hcell
      · rw [@List.find?_cons_of_neg _ (fun r => r.code == code) r rs hrc] at hb
        rw [@List.find?_cons_of_neg _ (fun r => r.code == code) r
          (updateFirst p f rs) hrc] at hb'
        exact ih hfind code b b' j m hb hb' hcell

theorem boardAt_filter_code {c0 : String} :
    ∀ {l : Store} {code : String} {b' : Board},
      boardAt (l.filter (fun r => r.code != c0)) code = some b' →
      boardAt l code = some b' := by
  intro l
  induction l with
  | nil => intro code b' h; cases h
  | cons r rs ih =>
    intro code b' h
    unfold boardAt at h ⊢
    rw [List.filter_cons] at h
    by_cases hk : (r.code != c0) = true
    · rw [if_pos hk] at h
      by_cases hrc : (r.code == code) = true
      · rw [@List.find?_cons_of_pos _ (fun r => r.code == code) r
          (rs.filter (fun r => r.code != c0)) hrc] at h
        rw [@List.find?_cons_of_pos _ (fun r => r.code == code) r rs hrc]
        exact h
      · rw [@List.find?_cons_of_neg _ (fun r => r.code == code) r
          (rs.filter (fun r => r.code != c0)) hrc] at h
        rw [@List.find?_cons_of_neg _ (fun r => r.code == code) r rs hrc]
        exact ih h
    · rw [if_neg hk] at h
      have hr0 : r.code = c0 := by simpa using hk
      by_cases hrc : (r.code == code) = true
      · exfalso
        have hcc : code = c0 := by
          have h1 : r.code = code := by simpa using hrc
          rw [← h1, hr0]
        have hnone : (rs.filter (fun r => r.code != c0)).find?
            (fun r => r.code == code) = none := by
          apply List.find?_eq_none.2
          intro q hq
          rcases List.mem_filter.1 hq with ⟨_, hqk⟩
          simp at hqk ⊢
          rw [hcc]
          exact hqk
        rw [hnone] at h
        cases h
      · rw [@List.find?_cons_of_neg _ (fun r => r.code == code) r rs hrc]
        exact ih h

theorem step_board_mono :
    ∀ (rooms : Store) (e : Event) (rooms' : Store) (emits : List Emit),
      step rooms e = some (rooms', emits) →
      (∀ sid : SocketId, e ≠ Event.newGame sid) →
      ∀ (code : String) (b b' : Board) (j : Nat) (m : Mark),
        boardAt rooms code = some b → boardAt rooms' code = some b' →
        b.get? j = some (some m) → b'.get? j = some (some m) := by
  intro rooms e rooms' emits hstep hne code b b' j m hb hb' hcell
  cases e with
  | newGame sid => exact absurd rfl (hne sid)
  | createRoom sid draws =>
    simp only [step] at hstep
    unfold handleCreateRoom at hstep
    split at hstep
    · cases hstep
      exact (boardAt_same hb hb') ▸ hcell
    · split at hstep
      · cases hstep
      · cases hstep
        exact (boardAt_same (boardAt_append hb) hb') ▸ hcell
  | joinRoom sid payload =>
    simp only [step] at hstep
    unfold handleJoinRoom at hstep
    split at hstep
    · cases hstep
    · split at hstep
      · cases hstep
        exact (boardAt_same hb hb') ▸ hcell
      · split at hstep
        · cases hstep
          exact (boardAt_same hb hb') ▸ hcell
        · split at hstep
          · cases hstep
            exact (boardAt_same hb hb') ▸ hcell
          · rename_i room hget
            split at hstep
            · cases hstep
              exact (boardAt_same hb hb') ▸ hcell
            · split at hstep
              · cases hstep
                exact (boardAt_same hb hb') ▸ hcell
              · cases hstep
                exact boardAt_updateFirst_mono rfl (fun j' m' hj' => hj')
                  rooms hget code b b' j m hb hb' hcell
  | makeMove sid payload =>
    simp only [step] at hstep
    unfold handleMakeMove at hstep
    split at hstep
    · cases hstep
      exact (boardAt_same hb hb') ▸ hcell
    · rename_i room hfp
      split at hstep
      · cases hstep
        exact (boardAt_same hb hb') ▸ hcell
      · split at hstep
        · cases hstep
        · split at hstep
          · cases hstep
            exact (boardAt_same hb hb') ▸ hcell
          · split at hstep
            · cases hstep
              exact (boardAt_same hb hb') ▸ hcell
            · split at hstep
              · cases hstep
                exact (boardAt_same hb hb') ▸ hcell
              · split at hstep
                · cases hstep
                  exact (boardAt_same hb hb') ▸ hcell
                · rename_i hval
                  have hfree : cellTaken room.board _ = false :=
                    Bool.eq_false_iff.2 (fun hc => hval (Or.inr (Or.inr hc)))
                  split at hstep <;>
                    (cases hstep
                     exact boardAt_updateFirst_mono rfl
                       (fun j' m' hj' => set_preserves_occupied hfree _ j' m' hj')
                       rooms hfp code b b' j m hb hb' hcell)
  | disconnect sid =>
    simp only [step] at hstep
    unfold handleDisconnect at hstep
    split at hstep
    · cases hstep
      exact (boardAt_same hb hb') ▸ hcell
    · rename_i room hfp
      split at hstep
      · cases hstep
        have hb2 := boardAt_filter_code hb'
        exact boardAt_updateFirst_mono rfl (fun j' m' hj' => hj')
          rooms hfp code b b' j m hb hb2 hcell
      · cases hstep
        exact boardAt_updateFirst_mono rfl (fun j' m' hj' => hj')
          rooms hfp code b b' j m hb hb' hcell

theorem makeMove_accept :
    ∀ (rooms : Store) (sid : SocketId) (room : Room) (i : Int),
      findPlayerRoom rooms sid = some room →
      room.gameActive = true →
      lookupSym room.symbols sid = some room.currentPlayer →
      ¬ (i < 0 ∨ 8 < i ∨ cellTaken room.board i = true) →
      ∃ (ended : Bool) (emits : List Emit),
        handleMakeMove rooms sid (some ⟨some i⟩) =
          some (updateFirst (fun r => r.players.contains sid)
            (moveUpd room.currentPlayer i ended) rooms, emits) := by
  intro rooms sid room i hfp hact hsym hval
  cases hcw : checkWinner (room.board.set i.toNat (some room.currentPlayer)) with
  | inProgress =>
    refine ⟨false,
      [.toRoom room.code (.moveMade (room.board.set i.toNat (some room.currentPlayer))
        (otherMark room.currentPlayer) i room.currentPlayer)], ?_⟩
    simp [handleMakeMove, hfp, hact, hsym, hval, hcw]
  | draw =>
    refine ⟨true,
      [.toRoom room.code (.gameEnd (room.board.set i.toNat (some room.currentPlayer))
        .draw msgDrawEnd)], ?_⟩
    simp [handleMakeMove, hfp, hact, hsym, hval, hcw]
  | win w =>
    refine ⟨true,
      [.toRoom room.code (.gameEnd (room.board.set i.toNat (some room.currentPlayer))
        (.win w) (msgWinEnd w))], ?_⟩
    simp [handleMakeMove, hfp, hact, hsym, hval, hcw]

/-- C3: an accepted move writes the requester's marker (which equals
the session's turn) into the chosen empty cell and sets the turn to the
other marker, so after each accepted move the turn is the marker that
did not just move and the turn alternates strictly over any run of
accepted moves; every step that is not an explicit reset (`newGame`)
only ever lets board cells pass from empty to occupied, never back; the
explicit reset clears all nine cells simultaneously. -/
theorem accepted_move_turn_alternation_board_monotone :
    (∀ (rooms : Store) (sid : SocketId) (room : Room) (i : Int),
      findPlayerRoom rooms sid = some room →
      room.gameActive = true →
      lookupSym room.symbols sid = some room.currentPlayer →
      ¬ (i < 0 ∨ 8 < i ∨ cellTaken room.board i = true) →
      ∃ (ended : Bool) (emits : List Emit),
        handleMakeMove rooms sid (some ⟨some i⟩) =
          some (updateFirst (fun r => r.players.contains sid)
            (moveUpd room.currentPlayer i ended) rooms, emits) ∧
        (moveUpd room.currentPlayer i ended room).board =
          room.board.set i.toNat (some room.currentPlayer) ∧
        (moveUpd room.currentPlayer i ended room).currentPlayer =
          otherMark room.currentPlayer) ∧
    (∀ (rooms : Store) (e : Event) (rooms' : Store) (emits : List Emit),
      step rooms e = some (rooms', emits) →
      (∀ sid : SocketId, e ≠ Event.newGame sid) →
      ∀ (code : String) (b b' : Board) (j : Nat) (m : Mark),
        boardAt rooms code = some b → boardAt rooms' code = some b' →
        b.get? j = some (some m) → b'.get? j = some (some m)) ∧
    (∀ r : Room, (resetUpd r).board = List.replicate 9 none) := by
  refine ⟨?_, step_board_mono, fun r => rfl⟩
  intro rooms sid room i hfp hact hsym hval
  obtain ⟨ended, emits, heq⟩ := makeMove_accept rooms sid room i hfp hact hsym hval
  exact ⟨ended, emits, heq, rfl, rfl⟩

/-- A two-player active room on a fresh board, `X` to move. -/
def c3Room : Room :=
  { code := "AAAAAA", players := ["p1", "p2"], board := freshBoard,
    currentPlayer := .X, gameActive := true,
    symbols := [("p1", .X), ("p2", .O)] }

def c3Store : Store := [c3Room]

/-- A one-player inactive room whose cell 0 is occupied by `X`. -/
def cxRoom : Room :=
  { code := "AAAAAA", players := ["p2"],
    board := [some .X, none, none, none, none, none, none, none, none],
    currentPlayer := .O, gameActive := false, symbols := [("p2", .O)] }

def cxStore : Store := [cxRoom]

theorem accepted_move_turn_alternation_board_monotone_witness :
    (∃ (ended : Bool) (emits : List Emit),
      handleMakeMove c3Store "p1" (some ⟨some 4⟩) =
        some (updateFirst (fun r => r.players.contains "p1")
          (moveUpd c3Room.currentPlayer 4 ended) c3Store, emits) ∧
      (moveUpd c3Room.currentPlayer 4 ended c3Room).board =
        c3Room.board.set (4 : Int).toNat (some c3Room.currentPlayer) ∧
      (moveUpd c3Room.currentPlayer 4 ended c3Room).currentPlayer =
        otherMark c3Room.currentPlayer) ∧
    (([some Mark.X, none, none, none, none, none, none, none, none] :
        Board).get? 0 = some (some Mark.X)) :=
  ⟨accepted_move_turn_alternation_board_monotone.1 c3Store "p1" c3Room 4
      (by decide) (by decide) (by decide) (by decide),
   accepted_move_turn_alternation_board_monotone.2.1 cxStore (.disconnect "zz")
      cxStore [] (by decide) (fun sid h => Event.noConfusion h) "AAAAAA"
      cxRoom.board _ 0 .X (by decide) (by decide) (by decide)⟩

/-- Trace: `p1` creates `AAAAAA`, `p2` joins, `p1` plays cell 0 and then
disconnects, leaving a one-player session with a stale board and the
turn at `O`. -/
def c4Trace : List Event :=
  [.createRoom "p1" ceDrawsA,
   .joinRoom "p2" (some ⟨some "AAAAAA"⟩),
   .makeMove "p1" (some ⟨some 0⟩),
   .disconnect "p1"]

/-- C4 counterexample: a reachable successful join into a session left
behind by a disconnect.  The joiner is added and the game restarts, but
the `gameStart` broadcast reports a board that is not fresh (cell 0
holds `X`) and a turn of `O` (marker B), and the remaining original
participant holds marker B, not marker A. -/
theorem join_after_disconnect_not_fresh :
    runEvents c4Trace [] = some cxStore ∧
    step cxStore (.joinRoom "p3" (some ⟨some "AAAAAA"⟩)) =
      some ([{ code := "AAAAAA", players := ["p2", "p3"],
               board := [some .X, none, none, none, none, none, none, none, none],
               currentPlayer := .O, gameActive := true,
               symbols := [("p2", .O), ("p3", .O)] }],
        [.toSocket "p3" (.joinedRoom "AAAAAA" .O),
         .toRoom "AAAAAA" (.gameStart
           [some .X, none, none, none, none, none, none, none, none] .O
           msgGameStarted)]) ∧
    ([some Mark.X, none, none, none, none, none, none, none, none] : Board) ≠
      freshBoard ∧
    Mark.O ≠ Mark.X ∧
    lookupSym [("p2", Mark.O)] "p2" ≠ some Mark.X := by
  refine ⟨by decide, by decide, by decide, by decide, by decide⟩

theorem handleJoinRoom_success :
    ∀ (rooms : Store) (sid : SocketId) (rc : String) (room : Room),
      (jsToUpper rc).length = 6 →
      getRoom rooms (jsToUpper rc) = some room →
      room.players.length < 2 →
      findPlayerRoom rooms sid = none →
      handleJoinRoom rooms sid (some ⟨some rc⟩) =
        some (updateFirst (fun r => r.code == jsToUpper (jsToUpper rc))
            (joinUpd sid) rooms,
          [.toSocket sid (.joinedRoom room.code .O),
           .toRoom room.code
             (.gameStart room.board room.currentPlayer msgGameStarted)]) := by
  intro rooms sid rc room hlen hget hlt hnone
  have h2 : ¬ room.players.length ≥ 2 := by omega
  have h3 : (findPlayerRoom rooms sid).isSome = false := by rw [hnone]; rfl
  simp [handleJoinRoom, hlen, hget, h2, h3]

/-- C4 (amended): every successful JoinSession adds the requester as
second participant with marker B (`'O'`) and makes the session active;
the joinedRoom reply and the gameStart broadcast report the session's
current board and turn.  Those equal the fresh board and marker A
exactly when the session still carried its created (or reset) state —
a session inherited from a disconnect keeps and reports its existing
board, turn, and the remaining participant's marker as they are. -/
theorem joinRoom_success_spec :
    ∀ (rooms : Store) (sid : SocketId) (rc : String) (room : Room),
      (storeCodes rooms).Nodup →
      (jsToUpper rc).length = 6 →
      getRoom rooms (jsToUpper rc) = some room →
      room.players.length < 2 →
      findPlayerRoom rooms sid = none →
      ∃ rooms' : Store,
        handleJoinRoom rooms sid (some ⟨some rc⟩) =
          some (rooms',
            [.toSocket sid (.joinedRoom room.code .O),
             .toRoom room.code
               (.gameStart room.board room.currentPlayer msgGameStarted)]) ∧
        rooms'.find? (fun r => r.code == room.code) = some (joinUpd sid room) ∧
        (joinUpd sid room).players = room.players ++ [sid] ∧
        lookupSym (joinUpd sid room).symbols sid = some .O ∧
        (joinUpd sid room).gameActive = true ∧
        (joinUpd sid room).board = room.board ∧
        (room.board = freshBoard → room.currentPlayer = .X →
          handleJoinRoom rooms sid (some ⟨some rc⟩) =
            some (rooms',
              [.toSocket sid (.joinedRoom room.code .O),
               .toRoom room.code (.gameStart freshBoard .X msgGameStarted)])) := by
  intro rooms sid rc room hnd hlen hget hlt hnone
  refine ⟨_, handleJoinRoom_success rooms sid rc room hlen hget hlt hnone, ?_, rfl,
    lookupSym_setSym_self _ _ _, rfl, rfl, ?_⟩
  · have hfind : rooms.find?
        (fun r => r.code == jsToUpper (jsToUpper rc)) = some room := hget
    exact find?_code_updateFirst rfl rooms hnd hfind
  · intro hbf hcp
    rw [← hbf, ← hcp]
    exact handleJoinRoom_success rooms sid rc room hlen hget hlt hnone

def c4wRoom : Room := createRoomWith "AAAAAA" "p1"

def c4wStore : Store := [c4wRoom]

theorem joinRoom_success_spec_witness :
    ∃ rooms' : Store,
      handleJoinRoom c4wStore "p2" (some ⟨some "aaaaaa"⟩) =
        some (rooms',
          [.toSocket "p2" (.joinedRoom c4wRoom.code .O),
           .toRoom c4wRoom.code
             (.gameStart c4wRoom.board c4wRoom.currentPlayer msgGameStarted)]) ∧
      rooms'.find? (fun r => r.code == c4wRoom.code) = some (joinUpd "p2" c4wRoom) ∧
      (joinUpd "p2" c4wRoom).players = c4wRoom.players ++ ["p2"] ∧
      lookupSym (joinUpd "p2" c4wRoom).symbols "p2" = some .O ∧
      (joinUpd "p2" c4wRoom).gameActive = true ∧
      (joinUpd "p2" c4wRoom).board = c4wRoom.board ∧
      (c4wRoom.board = freshBoard → c4wRoom.currentPlayer = .X →
        handleJoinRoom c4wStore "p2" (some ⟨some "aaaaaa"⟩) =
          some (rooms',
            [.toSocket "p2" (.joinedRoom c4wRoom.code .O),
             .toRoom c4wRoom.code (.gameStart freshBoard .X msgGameStarted)])) :=
  joinRoom_success_spec c4wStore "p2" "aaaaaa" c4wRoom (by decide) (by decide)
    (by decide) (by decide) (by decide)

/-- C10: a successful join always assigns marker B (`'O'`) to the
joiner, never marker A, and leaves the existing board contents and the
other participants' marker assignments untouched; in particular a join
into a session whose remaining participant already holds `'O'` yields
two participants both assigned `'O'`. -/
theorem joinRoom_assigns_O_keeps_rest :
    ∀ (rooms : Store) (sid : SocketId) (rc : String) (room : Room),
      (jsToUpper rc).length = 6 →
      getRoom rooms (jsToUpper rc) = some room →
      room.players.length < 2 →
      findPlayerRoom rooms sid = none →
      ∃ emits : List Emit,
        handleJoinRoom rooms sid (some ⟨some rc⟩) =
          some (updateFirst (fun r => r.code == jsToUpper (jsToUpper rc))
            (joinUpd sid) rooms, emits) ∧
        lookupSym (joinUpd sid room).symbols sid = some .O ∧
        (joinUpd sid room).board = room.board ∧
        (∀ x : SocketId, x ≠ sid →
          lookupSym (joinUpd sid room).symbols x = lookupSym room.symbols x) := by
  intro rooms sid rc room hlen hget hlt hnone
  exact ⟨_, handleJoinRoom_success rooms sid rc room hlen hget hlt hnone,
    lookupSym_setSym_self _ _ _, rfl,
    fun x hx => lookupSym_setSym_other hx _ _⟩

/-- Trace: `p1` creates `AAAAAA`, `p2` joins (getting `'O'`), `p1` leaves. -/
def c10Trace : List Event :=
  [.createRoom "p1" ceDrawsA,
   .joinRoom "p2" (some ⟨some "AAAAAA"⟩),
   .disconnect "p1"]

def c10Room : Room :=
  { code := "AAAAAA", players := ["p2"], board := freshBoard,
    currentPlayer := .X, gameActive := false, symbols := [("p2", .O)] }

def c10Store : Store := [c10Room]

theorem joinRoom_assigns_O_keeps_rest_witness :
    (runEvents c10Trace [] = some c10Store ∧
     lookupSym c10Room.symbols "p2" = some .O ∧
     runEvents (c10Trace ++ [.joinRoom "p3" (some ⟨some "AAAAAA"⟩)]) [] =
       some [{ code := "AAAAAA", players := ["p2", "p3"], board := freshBoard,
               currentPlayer := .X, gameActive := true,
               symbols := [("p2", .O), ("p3", .O)] }]) ∧
    (∃ emits : List Emit,
      handleJoinRoom c10Store "p3" (some ⟨some "AAAAAA"⟩) =
        some (updateFirst (fun r => r.code == jsToUpper (jsToUpper "AAAAAA"))
          (joinUpd "p3") c10Store, emits) ∧
      lookupSym (joinUpd "p3" c10Room).symbols "p3" = some .O ∧
      (joinUpd "p3" c10Room).board = c10Room.board ∧
      (∀ x : SocketId, x ≠ "p3" →
        lookupSym (joinUpd "p3" c10Room).symbols x = lookupSym c10Room.symbols x)) :=
  ⟨by decide, joinRoom_assigns_O_keeps_rest c10Store "p3" "AAAAAA" c10Room
    (by decide) (by decide) (by decide) (by decide)⟩

/-- C6: a disconnect of a socket in no session is a no-op; otherwise
the socket is removed from the participants, its marker assignment is
deleted, the session is forced inactive regardless of its prior state,
a player-left notice is broadcast to the room, and when no participant
remains the session is removed from the store, so that a later lookup
of its identifier finds nothing. -/
theorem disconnect_spec :
    ∀ (rooms : Store) (sid : SocketId),
      (findPlayerRoom rooms sid = none → handleDisconnect rooms sid = (rooms, [])) ∧
      (∀ room : Room, (storeCodes rooms).Nodup →
        findPlayerRoom rooms sid = some room →
        (handleDisconnect rooms sid).2 =
          [.toRoom room.code (.playerDisconnected msgOpponentLeft)] ∧
        (dropUpd sid room).players = room.players.filter (fun x => x != sid) ∧
        lookupSym (dropUpd sid room).symbols sid = none ∧
        (dropUpd sid room).gameActive = false ∧
        ((dropUpd sid room).players.isEmpty = true →
          (handleDisconnect rooms sid).1.find?
            (fun r => r.code == room.code) = none ∧
          (jsToUpper room.code = room.code →
            getRoom (handleDisconnect rooms sid).1 room.code = none)) ∧
        ((dropUpd sid room).players.isEmpty = false →
          (handleDisconnect rooms sid).1.find? (fun r => r.code == room.code) =
            some (dropUpd sid room))) := by
  intro rooms sid
  constructor
  · intro h
    unfold handleDisconnect
    rw [h]
  · intro room hnd hfp
    have hfind : rooms.find? (fun r => r.players.contains sid) = some room := hfp
    have heq : handleDisconnect rooms sid =
        (if (dropUpd sid room).players.isEmpty then
          ((updateFirst (fun r => r.players.contains sid) (dropUpd sid) rooms).filter
              (fun r => r.code != room.code),
            [Emit.toRoom room.code (.playerDisconnected msgOpponentLeft)])
        else
          (updateFirst (fun r => r.players.contains sid) (dropUpd sid) rooms,
            [Emit.toRoom room.code (.playerDisconnected msgOpponentLeft)])) := by
      unfold handleDisconnect
      rw [hfp]
    by_cases hemp : (dropUpd sid room).players.isEmpty = true
    · rw [heq, if_pos hemp]
      refine ⟨rfl, rfl, lookupSym_delSym_self _ _, rfl, ?_, ?_⟩
      · intro _
        have hnone : ((updateFirst (fun r => r.players.contains sid) (dropUpd sid)
            rooms).filter (fun r => r.code != room.code)).find?
            (fun r => r.code == room.code) = none := by
          apply List.find?_eq_none.2
          intro q hq
          rcases List.mem_filter.1 hq with ⟨_, hqk⟩
          simpa using hqk
        refine ⟨hnone, ?_⟩
        intro hup
        unfold getRoom
        rw [hup]
        exact hnone
      · intro hcon
        rw [hemp] at hcon
        cases hcon
    · rw [heq, if_neg hemp]
      have hemp' : (dropUpd sid room).players.isEmpty = false :=
        Bool.eq_false_iff.2 hemp
      refine ⟨rfl, rfl, lookupSym_delSym_self _ _, rfl, ?_, ?_⟩
      · intro hcon
        rw [hemp'] at hcon
        cases hcon
      · intro _
        exact find?_code_updateFirst rfl rooms hnd hfind

theorem disconnect_spec_witness :
    handleDisconnect [] "zz" = ([], []) ∧
    getRoom (handleDisconnect c4wStore "p1").1 "AAAAAA" = none ∧
    (handleDisconnect c3Store "p2").1.find? (fun r => r.code == c3Room.code) =
      some (dropUpd "p2" c3Room) :=
  ⟨(disconnect_spec [] "zz").1 (by decide),
   (((disconnect_spec c4wStore "p1").2 c4wRoom (by decide)
       (by decide)).2.2.2.2.1 (by decide)).2 (by decide),
   ((disconnect_spec c3Store "p2").2 c3Room (by decide)
       (by decide)).2.2.2.2.2 (by decide)⟩

/-- C7: `newGame` fails with NotInSession when the requester has no
room and with InsufficientPlayers when the room does not hold exactly
two participants, in both cases leaving the store unchanged with one
directed error; on success the stored session gets an all-empty board,
turn marker A (`'X'`), the active state, and a `gameStart` broadcast of
the same shape as the join-triggered one is sent to the room. -/
theorem newGame_spec :
    ∀ (rooms : Store) (sid : SocketId),
      (findPlayerRoom rooms sid = none →
        handleNewGame rooms sid =
          (rooms, [.toSocket sid (.errorMsg msgNotInRoom)])) ∧
      (∀ room : Room, findPlayerRoom rooms sid = some room →
        room.players.length ≠ 2 →
        handleNewGame rooms sid =
          (rooms, [.toSocket sid (.errorMsg msgNeedTwoPlayers)])) ∧
      (∀ room : Room, (storeCodes rooms).Nodup →
        findPlayerRoom rooms sid = some room →
        room.players.length = 2 →
        (handleNewGame rooms sid).2 =
          [.toRoom room.code (.gameStart freshBoard .X msgNewGame)] ∧
        (handleNewGame rooms sid).1.find? (fun r => r.code == room.code) =
          some (resetUpd room) ∧
        (resetUpd room).board = List.replicate 9 none ∧
        (resetUpd room).currentPlayer = .X ∧
        (resetUpd room).gameActive = true) := by
  intro rooms sid
  have heqOf : ∀ room : Room, findPlayerRoom rooms sid = some room →
      handleNewGame rooms sid =
        (if room.players.length != 2 then
          (rooms, [.toSocket sid (.errorMsg msgNeedTwoPlayers)])
        else
          (updateFirst (fun r => r.players.contains sid) resetUpd rooms,
            [.toRoom room.code (.gameStart freshBoard .X msgNewGame)])) := by
    intro room hfp
    unfold handleNewGame
    rw [hfp]
  refine ⟨?_, ?_, ?_⟩
  · intro h
    unfold handleNewGame
    rw [h]
  · intro room hfp hlen
    rw [heqOf room hfp, if_pos (by simpa using hlen)]
  · intro room hnd hfp hlen
    have hfind : rooms.find? (fun r => r.players.contains sid) = some room := hfp
    have hne : ¬ (room.players.length != 2) = true := by simp [hlen]
    rw [heqOf room hfp, if_neg hne]
    exact ⟨rfl, find?_code_updateFirst rfl rooms hnd hfind, rfl, rfl, rfl⟩

theorem newGame_spec_witness :
    handleNewGame [] "zz" = ([], [.toSocket "zz" (.errorMsg msgNotInRoom)]) ∧
    handleNewGame c10Store "p2" =
      (c10Store, [.toSocket "p2" (.errorMsg msgNeedTwoPlayers)]) ∧
    (handleNewGame c3Store "p1").1.find? (fun r => r.code == c3Room.code) =
      some (resetUpd c3Room) :=
  ⟨(newGame_spec [] "zz").1 (by decide),
   (newGame_spec c10Store "p2").2.1 c10Room (by decide) (by decide),
   ((newGame_spec c3Store "p1").2.2 c3Room (by decide) (by decide)
      (by decide)).2.1⟩

theorem errors_never_broadcast :
    ∀ (rooms : Store) (e : Event) (rooms' : Store) (emits : List Emit),
      step rooms e = some (rooms', emits) →
      ∀ (code msg : String), Emit.toRoom code (.errorMsg msg) ∉ emits := by
  intro rooms e rooms' emits hstep code msg
  cases e with
  | createRoom sid draws =>
    simp only [step] at hstep
    unfold handleCreateRoom at hstep
    repeat' split at hstep
    all_goals cases hstep
    all_goals simp
  | joinRoom sid payload =>
    simp only [step] at hstep
    unfold handleJoinRoom at hstep
    repeat' split at hstep
    all_goals cases hstep
    all_goals simp
  | makeMove sid payload =>
    simp only [step] at hstep
    unfold handleMakeMove at hstep
    repeat' split at hstep
    all_goals cases hstep
    all_goals simp
  | newGame sid =>
    simp only [step] at hstep
    injection hstep with h'
    unfold handleNewGame at h'
    repeat' split at h'
    all_goals injection h' with h1 h2
    all_goals subst h2
    all_goals simp
  | disconnect sid =>
    simp only [step] at hstep
    injection hstep with h'
    unfold handleDisconnect at h'
    repeat' split at h'
    all_goals injection h' with h1 h2
    all_goals subst h2
    all_goals simp

/-- C9 counterexample: a missing payload object does not become a
validation error.  In `joinRoom` the very first field access
`data.roomCode` throws an uncaught `TypeError` (the model's `none`
result: no state, no reply), and the same happens in `makeMove` on a
reachable active session once the session checks pass — instead of the
directed error reply the claim promises. -/
theorem missing_payload_throws :
    step [] (.joinRoom "p1" none) = none ∧
    step c3Store (.makeMove "p1" none) = none := by
  exact ⟨rfl, rfl⟩

/-- C9 (amended): for a payload object that is present, a missing or
nullish field is treated as the closest validation error — a missing
`roomCode` (or one of the wrong length) yields InvalidCode, a missing
`cellIndex` yields InvalidMove once the session checks pass — reported
as a directed error to the requester only, and error messages are never
broadcast to a room by any handler; but an absent payload object is not
handled: `joinRoom` raises an uncaught `TypeError` immediately, and
`makeMove` does so whenever the session and activity checks pass. -/
theorem malformed_payload_policy :
    ∀ (rooms : Store) (sid : SocketId),
      (handleJoinRoom rooms sid none = none) ∧
      (handleJoinRoom rooms sid (some ⟨none⟩) =
        some (rooms, [.toSocket sid (.errorMsg msgInvalidCode)])) ∧
      (∀ rc : String, (jsToUpper rc).length ≠ 6 →
        handleJoinRoom rooms sid (some ⟨some rc⟩) =
          some (rooms, [.toSocket sid (.errorMsg msgInvalidCode)])) ∧
      (∀ room : Room, findPlayerRoom rooms sid = some room →
        room.gameActive = true → handleMakeMove rooms sid none = none) ∧
      (∀ room : Room, findPlayerRoom rooms sid = some room →
        room.gameActive = true →
        lookupSym room.symbols sid = some room.currentPlayer →
        handleMakeMove rooms sid (some ⟨none⟩) =
          some (rooms, [.toSocket sid (.errorMsg msgInvalidMove)])) ∧
      (∀ (e : Event) (rooms' : Store) (emits : List Emit),
        step rooms e = some (rooms', emits) →
        ∀ (code msg : String), Emit.toRoom code (.errorMsg msg) ∉ emits) := by
  intro rooms sid
  refine ⟨rfl, rfl, ?_, ?_, ?_, ?_⟩
  · intro rc hlen
    have hlen' : ((jsToUpper rc).length != 6) = true := by simpa using hlen
    simp [handleJoinRoom, hlen']
  · intro room hfp hact
    simp [handleMakeMove, hfp, hact]
  · intro room hfp hact hsym
    simp [handleMakeMove, hfp, hact, hsym]
  · intro e rooms' emits hstep code msg
    exact errors_never_broadcast rooms e rooms' emits hstep code msg

theorem malformed_payload_policy_witness :
    handleJoinRoom [] "p1" (some ⟨some "AB"⟩) =
      some ([], [.toSocket "p1" (.errorMsg msgInvalidCode)]) ∧
    handleMakeMove c3Store "p1" (some ⟨none⟩) =
      some (c3Store, [.toSocket "p1" (.errorMsg msgInvalidMove)]) ∧
    Emit.toRoom "AAAAAA" (.errorMsg msgNotInRoom) ∉
      [Emit.toSocket "p1" (ServerMsg.errorMsg msgNotInRoom)] :=
  ⟨(malformed_payload_policy [] "p1").2.2.1 "AB" (by decide),
   (malformed_payload_policy c3Store "p1").2.2.2.2.1 c3Room (by decide) (by decide)
     (by decide),
   (malformed_payload_policy [] "p1").2.2.2.2.2 (.newGame "p1") []
     [Emit.toSocket "p1" (ServerMsg.errorMsg msgNotInRoom)] (by decide)
     "AAAAAA" msgNotInRoom⟩
